import Mathlib

/-!
Verification development for the `gpu-worker` repository: a GPU-accelerated
GIF mirroring microservice.  The byte-level and control-flow parts of the
code are embedded shallowly: bytes are `Nat` values, `u32`/`u16` arithmetic
is `Nat` arithmetic reduced modulo `2^32` / `2^16` exactly where the Rust
code performs machine arithmetic (release-mode wrapping semantics), Rust
slice indexing that can panic is modelled with `Option` (`none` = panic),
and fallible Rust functions returning `Result` are modelled with `Except`.
External collaborators (the wgpu GPU driver, the `gif` codec crate, the
multipart extractor) are abstracted as oracle parameters, as the spec
treats them as external interfaces; all control flow around them is
translated from the repository's source.
-/

namespace GpuWorker

/-- Modulus of Rust `u32` arithmetic. -/
def U32 : Nat := 4294967296

/-- Modulus of Rust `u16` arithmetic (GIF canvas dimensions are `u16`). -/
def U16 : Nat := 65536

/-- The wgpu row-alignment constant `wgpu::COPY_BYTES_PER_ROW_ALIGNMENT` (256 bytes). -/
def COPY_BYTES_PER_ROW_ALIGNMENT : Nat := 256

/-- Error type of the `transformations` crate (`transformations/src/error.rs`).
The `String` payloads of the Rust enum are elided: no behaviour in the core
depends on the message text. -/
inductive TransformationError where
  | GpuError
  | ImageError
  | IoError
  | InvalidInput
  | ProcessingError
  | BufferError
deriving DecidableEq

/-- `GpuProcessor::calculate_aligned_bytes_per_row` (`transformations/src/gpu.rs`):
`let unpadded_bytes_per_row = 4 * width; (unpadded_bytes_per_row + align - 1) / align * align`,
computed in `u32` arithmetic (wrapping on overflow in release builds). -/
def calculate_aligned_bytes_per_row (width : Nat) : Nat :=
  let unpadded_bytes_per_row := 4 * width % U32
  let align := COPY_BYTES_PER_ROW_ALIGNMENT
  (unpadded_bytes_per_row + align - 1) % U32 / align * align

/-- The row loop of `GpuProcessor::remove_padding`: for each of the remaining
rows (starting at index `row`), slice `data[row_start .. row_start + unpadded]`
where `row_start = row * stride` in `u32` arithmetic, and concatenate the
slices.  `none` models the Rust panic when the slice is out of bounds. -/
def remove_padding_rows (data : List Nat) (unpadded stride : Nat) :
    Nat → Nat → Option (List Nat)
  | _row, 0 => some []
  | row, Nat.succ rem =>
    let row_start := row * stride % U32
    if row_start + unpadded ≤ data.length then
      match remove_padding_rows data unpadded stride (row + 1) rem with
      | some rest => some ((data.drop row_start).take unpadded ++ rest)
      | none => none
    else none

/-- `GpuProcessor::remove_padding` (`transformations/src/gpu.rs`): if the padded
stride equals the unpadded row length `4 * width` (u32), return the data as is;
otherwise copy the first `4 * width` bytes of each of `height` rows. -/
def remove_padding (data : List Nat) (width height padded_bytes_per_row : Nat) :
    Option (List Nat) :=
  let unpadded_bytes_per_row := 4 * width % U32
  if padded_bytes_per_row = unpadded_bytes_per_row then some data
  else remove_padding_rows data unpadded_bytes_per_row padded_bytes_per_row 0 height

/-- The readback/unpadding tail of `MirrorProcessor::mirror_vertically`
(`transformations/src/mirror.rs`): the GPU render and buffer mapping are
abstracted by the `readback` parameter (the bytes `read_buffer` returned for
the output buffer, which was allocated with `padded_bytes_per_row * height`
bytes in u32 arithmetic); the function then strips the row padding.  This is
the part of `mirror_vertically` that determines the returned buffer. -/
def mirror_vertically (readback : List Nat) (width height : Nat) :
    Option (List Nat) :=
  let padded_bytes_per_row := calculate_aligned_bytes_per_row width
  remove_padding readback width height padded_bytes_per_row

/-- Stated from the spec's words for `remove_padding` (the claimed behaviour,
to be compared with the implementation): the concatenation, for `row = 0` to
`height - 1`, of the `4 * width` bytes of `data` starting at offset
`row * stride`. -/
def strip_rows_claimed (data : List Nat) (width height stride : Nat) : List Nat :=
  (List.range height).flatMap fun row => (data.drop (row * stride)).take (4 * width)

/-- Error type of the service crate (`src/error.rs`, enum `GpuWorkerError`).
Payloads (message strings and wrapped library errors) are elided: the HTTP
status mapping depends only on the variant.  The Rust `Io` variant is named
`IoError` here. -/
inductive GpuWorkerError where
  | Gpu
  | ImageProcessing
  | InvalidInput
  | Internal
  | IoError
  | WgpuDevice
  | Image
  | GifDecode
  | GifEncode
  | Transformation
  | Multipart
deriving DecidableEq

/-- The HTTP status code chosen by `GpuWorkerError::error_response`
(`src/error.rs`): `InternalServerError` = 500, `UnprocessableEntity` = 422,
`BadRequest` = 400, matching the `match` arms of the source. -/
def error_status : GpuWorkerError → Nat
  | GpuWorkerError.Gpu => 500
  | GpuWorkerError.WgpuDevice => 500
  | GpuWorkerError.Internal => 500
  | GpuWorkerError.IoError => 500
  | GpuWorkerError.ImageProcessing => 422
  | GpuWorkerError.Image => 422
  | GpuWorkerError.GifDecode => 422
  | GpuWorkerError.GifEncode => 422
  | GpuWorkerError.InvalidInput => 400
  | GpuWorkerError.Multipart => 400
  | GpuWorkerError.Transformation => 500

/-- GIF disposal methods (the `gif` crate's `DisposalMethod`). -/
inductive DisposalMethod where
  | Any
  | Keep
  | Background
  | Previous
deriving DecidableEq

/-- A decoded GIF frame (the fields of `gif::Frame` that the repository
reads or writes): pixel buffer plus per-frame metadata. -/
structure GifFrame where
  buffer : List Nat
  delay : Nat
  dispose : DisposalMethod
  transparent : Option Nat
  needs_user_input : Bool
  top : Nat
  left : Nat
  interlaced : Bool
  width : Nat
  height : Nat
deriving DecidableEq

/-- The `gif` crate's `Repeat` loop setting. -/
inductive GifRepeat where
  | Finite (count : Nat)
  | Infinite
deriving DecidableEq

/-- The semantic content written through the GIF encoder: canvas size, the
repeat setting, and the frames written, in order.  Abstracts the byte
serialization performed by the external `gif` codec. -/
structure EncodedGif where
  width : Nat
  height : Nat
  loopSetting : GifRepeat
  frames : List GifFrame
deriving DecidableEq

/-- `extract_gif_from_multipart` (`src/handlers.rs`), at the level of the
extracted `file` field: a missing `file` field or an empty one is rejected
with `GpuWorkerError::InvalidInput`; otherwise the bytes are returned. -/
def extract_gif_from_multipart (fileField : Option (List Nat)) :
    Except GpuWorkerError (List Nat) :=
  match fileField with
  | some gif_data =>
    if gif_data.isEmpty then Except.error GpuWorkerError.InvalidInput
    else Except.ok gif_data
  | none => Except.error GpuWorkerError.InvalidInput

/-- `decode_gif` (`src/handlers.rs`).  The external `gif` decoder is the
oracle `decoder`: `none` models a `gif::DecodingError` (mapped to the
`GifDecode` variant by `#[from]`), `some` yields the decoded frames and the
canvas width/height.  The repository then rejects a GIF with no frames with
`GpuWorkerError::InvalidInput`. -/
def decode_gif (decoder : List Nat → Option (List GifFrame × Nat × Nat))
    (gif_data : List Nat) : Except GpuWorkerError (List GifFrame × Nat × Nat) :=
  match decoder gif_data with
  | none => Except.error GpuWorkerError.GifDecode
  | some (frames, width, height) =>
    if frames.isEmpty then Except.error GpuWorkerError.InvalidInput
    else Except.ok (frames, width, height)

/-- The `chunks(3)` loop of `normalize_frame_to_rgba`: for each chunk of the
buffer, extend the output with the chunk and push an alpha byte 255.  A final
chunk of fewer than 3 bytes is still followed by the alpha byte, exactly as
the Rust loop behaves. -/
def rgb_chunks_to_rgba : List Nat → List Nat
  | r :: g :: b :: rest => r :: g :: b :: 255 :: rgb_chunks_to_rgba rest
  | [] => []
  | [r] => [r, 255]
  | [r, g] => [r, g, 255]

/-- `normalize_frame_to_rgba` (`src/handlers.rs`): compares the frame buffer
length against `(width * height * 4) as usize` and `(width * height * 3) as
usize` (both products computed in `u32`), passing an RGBA-sized buffer
through unchanged, expanding an RGB-sized buffer with opaque alpha, and
rejecting any other length with `GpuWorkerError::InvalidInput`. -/
def normalize_frame_to_rgba (buffer : List Nat) (width height : Nat) :
    Except GpuWorkerError (List Nat) :=
  let expected_rgba_len := width * height % U32 * 4 % U32
  let expected_rgb_len := width * height % U32 * 3 % U32
  if buffer.length = expected_rgba_len then Except.ok buffer
  else if buffer.length = expected_rgb_len then
    Except.ok (rgb_chunks_to_rgba buffer)
  else Except.error GpuWorkerError.InvalidInput

/-- The `chunks(4).flat_map(|rgba| &rgba[..3])` conversion inside
`create_mirrored_frame`: keep the first three bytes of every 4-byte chunk.
A final chunk of 1 or 2 bytes makes the slice `&rgba[..3]` panic in Rust,
modelled by `none`; a final chunk of exactly 3 bytes is kept whole. -/
def rgba_to_rgb : List Nat → Option (List Nat)
  | r :: g :: b :: _a :: rest =>
    match rgba_to_rgb rest with
    | some tail => some (r :: g :: b :: tail)
    | none => none
  | [] => some []
  | [r, g, b] => some [r, g, b]
  | _ => none

/-- `create_mirrored_frame` (`src/handlers.rs`): converts the mirrored RGBA
bytes back to RGB, builds a frame of the given (u16) dimensions from them
(the external `gif::Frame::from_rgb_speed` palette encoding is abstracted:
the RGB bytes are the frame's pixel content), then copies `delay`,
`dispose`, `transparent`, `needs_user_input`, `top`, `left` and `interlaced`
from the original frame. -/
def create_mirrored_frame (original : GifFrame) (mirrored_rgba : List Nat)
    (width height : Nat) : Option GifFrame :=
  match rgba_to_rgb mirrored_rgba with
  | none => none
  | some rgb_data =>
    some { buffer := rgb_data
           delay := original.delay
           dispose := original.dispose
           transparent := original.transparent
           needs_user_input := original.needs_user_input
           top := original.top
           left := original.left
           interlaced := original.interlaced
           width := width
           height := height }

/-- `create_gif_encoder` (`src/handlers.rs`): a fresh encoder for the given
(u16) canvas size whose repeat setting is set to `Repeat::Infinite`. -/
def create_gif_encoder (width height : Nat) : EncodedGif :=
  { width := width, height := height,
    loopSetting := GifRepeat.Infinite, frames := [] }

/-- The frame loop of `encode_mirrored_gif` (`src/handlers.rs`): for each
frame in order, normalize to RGBA, mirror through the GPU (`mirror` oracle;
a `TransformationError` converts to the `Transformation` variant via
`#[from]`), rebuild the frame with the original metadata at the canvas size
cast to `u16`, and write it to the encoder (`writeFrame` oracle; `false`
models a `gif::EncodingError`, mapped to `GifEncode`).  The outer `Option`
is `none` when a step panics; the first failing step aborts the loop. -/
def process_frames
    (mirror : List Nat → Nat → Nat → Except TransformationError (List Nat))
    (writeFrame : GifFrame → Bool) (width height : Nat) :
    List GifFrame → Option (Except GpuWorkerError (List GifFrame))
  | [] => some (Except.ok [])
  | frame :: rest =>
    match normalize_frame_to_rgba frame.buffer width height with
    | Except.error e => some (Except.error e)
    | Except.ok rgba_data =>
      match mirror rgba_data width height with
      | Except.error _ => some (Except.error GpuWorkerError.Transformation)
      | Except.ok mirrored_data =>
        match create_mirrored_frame frame mirrored_data (width % U16) (height % U16) with
        | none => none
        | some mirrored_frame =>
          if writeFrame mirrored_frame then
            match process_frames mirror writeFrame width height rest with
            | none => none
            | some (Except.error e) => some (Except.error e)
            | some (Except.ok out) => some (Except.ok (mirrored_frame :: out))
          else some (Except.error GpuWorkerError.GifEncode)

/-- `encode_mirrored_gif` (`src/handlers.rs`): create the encoder at the
canvas size cast to `u16`, run the frame loop, and return the encoder's
output only when every frame succeeded. -/
def encode_mirrored_gif (frames : List GifFrame) (width height : Nat)
    (mirror : List Nat → Nat → Nat → Except TransformationError (List Nat))
    (writeFrame : GifFrame → Bool) :
    Option (Except GpuWorkerError EncodedGif) :=
  match process_frames mirror writeFrame width height frames with
  | none => none
  | some (Except.error e) => some (Except.error e)
  | some (Except.ok out) =>
    some (Except.ok { create_gif_encoder (width % U16) (height % U16) with frames := out })

/-- `process_gif_mirror` (`src/handlers.rs`): decode, then mirror and
re-encode every frame. -/
def process_gif_mirror (decoder : List Nat → Option (List GifFrame × Nat × Nat))
    (mirror : List Nat → Nat → Nat → Except TransformationError (List Nat))
    (writeFrame : GifFrame → Bool) (gif_data : List Nat) :
    Option (Except GpuWorkerError EncodedGif) :=
  match decode_gif decoder gif_data with
  | Except.error e => some (Except.error e)
  | Except.ok (frames, width, height) =>
    encode_mirrored_gif frames width height mirror writeFrame

/-- One frame of the loop in `encode_mirrored_gif` fails with a returned
error: its normalization fails, or its GPU mirror call fails, or writing the
rebuilt frame to the encoder fails. -/
def frame_step_fails
    (mirror : List Nat → Nat → Nat → Except TransformationError (List Nat))
    (writeFrame : GifFrame → Bool) (width height : Nat) (frame : GifFrame) : Prop :=
  (∃ e, normalize_frame_to_rgba frame.buffer width height = Except.error e) ∨
  (∃ rgba_data e, normalize_frame_to_rgba frame.buffer width height = Except.ok rgba_data ∧
    mirror rgba_data width height = Except.error e) ∨
  (∃ rgba_data mirrored_data mirrored_frame,
    normalize_frame_to_rgba frame.buffer width height = Except.ok rgba_data ∧
    mirror rgba_data width height = Except.ok mirrored_data ∧
    create_mirrored_frame frame mirrored_data (width % U16) (height % U16) = some mirrored_frame ∧
    writeFrame mirrored_frame = false)

/-- A rebuilt frame is related to its original as `create_mirrored_frame`
builds it: all metadata copied, dimensions set to the (u16) canvas size, and
the pixel content is the RGB conversion of a successful normalize + mirror
of the original's buffer. -/
def frame_processed
    (mirror : List Nat → Nat → Nat → Except TransformationError (List Nat))
    (width height : Nat) (f mf : GifFrame) : Prop :=
  mf.delay = f.delay ∧ mf.dispose = f.dispose ∧ mf.transparent = f.transparent ∧
  mf.needs_user_input = f.needs_user_input ∧ mf.top = f.top ∧ mf.left = f.left ∧
  mf.interlaced = f.interlaced ∧ mf.width = width % U16 ∧ mf.height = height % U16 ∧
  ∃ rgba mirrored rgb,
    normalize_frame_to_rgba f.buffer width height = Except.ok rgba ∧
    mirror rgba width height = Except.ok mirrored ∧
    rgba_to_rgb mirrored = some rgb ∧ mf.buffer = rgb

/-- Concrete fixture: a frame whose buffer is valid 1x1 RGBA. -/
def frameA : GifFrame :=
  { buffer := [9, 8, 7, 6], delay := 7, dispose := DisposalMethod.Background,
    transparent := some 2, needs_user_input := true, top := 3, left := 5,
    interlaced := true, width := 1, height := 1 }

/-- Concrete fixture: a frame whose 1-byte buffer is not a valid 1x1 frame. -/
def frameBad : GifFrame :=
  { buffer := [0], delay := 0, dispose := DisposalMethod.Any,
    transparent := none, needs_user_input := false, top := 0, left := 0,
    interlaced := false, width := 1, height := 1 }

/-- Concrete fixture: a mirror oracle returning its input unchanged. -/
def mirrorId : List Nat → Nat → Nat → Except TransformationError (List Nat) :=
  fun image_data _ _ => Except.ok image_data

/-- Concrete fixture: an encoder write oracle that always succeeds. -/
def writeOk : GifFrame → Bool := fun _ => true

/-- Concrete fixture: a decoder oracle yielding one valid 1x1 frame. -/
def decoderA : List Nat → Option (List GifFrame × Nat × Nat) :=
  fun _ => some ([frameA], 1, 1)

/-- Concrete fixture: a decoder oracle yielding one invalid frame. -/
def decoderBad : List Nat → Option (List GifFrame × Nat × Nat) :=
  fun _ => some ([frameBad], 1, 1)

/-- Concrete fixture: the rebuilt frame produced from `frameA`. -/
def frameAOut : GifFrame :=
  { buffer := [9, 8, 7], delay := 7, dispose := DisposalMethod.Background,
    transparent := some 2, needs_user_input := true, top := 3, left := 5,
    interlaced := true, width := 1, height := 1 }

/-- Concrete fixture: the container produced from `decoderA` and `mirrorId`. -/
def encodedA : EncodedGif :=
  { width := 1, height := 1, loopSetting := GifRepeat.Infinite, frames := [frameAOut] }

/-! ### Helper lemmas -/

/-- Concatenating the `h` consecutive `w`-byte chunks of a list of length
`w * h` reproduces the list. -/
lemma flatMap_range_chunks (w : Nat) :
    ∀ (h : Nat) (data : List Nat), data.length = w * h →
      ((List.range h).flatMap fun r => (data.drop (r * w)).take w) = data := by
  intro h
  induction h with
  | zero =>
    intro data hlen
    simp only [Nat.mul_zero] at hlen
    simp [List.eq_nil_of_length_eq_zero hlen]
  | succ n ih =>
    intro data hlen
    rw [List.range_succ_eq_map, List.flatMap_cons, List.flatMap_map]
    have hdrop : ∀ r : Nat,
        (data.drop ((r + 1) * w)).take w = (((data.drop w).drop (r * w)).take w) := by
      intro r
      rw [List.drop_drop]
      congr 1
      rw [Nat.add_mul, Nat.one_mul, Nat.add_comm]
    have hfm : ((List.range n).flatMap fun r => (data.drop ((r + 1) * w)).take w)
        = ((List.range n).flatMap fun r => (((data.drop w).drop (r * w)).take w)) := by
      rw [List.flatMap_def, List.flatMap_def]
      congr 1
      exact List.map_congr_left fun r _ => hdrop r
    have hlen' : (data.drop w).length = w * n := by
      rw [List.length_drop, hlen, Nat.mul_succ]
      omega
    calc (data.drop (0 * w)).take w
          ++ ((List.range n).flatMap fun r => (data.drop (Nat.succ r * w)).take w)
        = data.take w ++ ((List.range n).flatMap fun r => (((data.drop w).drop (r * w)).take w)) := by
          rw [← hfm]; simp
      _ = data.take w ++ data.drop w := by rw [ih (data.drop w) hlen']
      _ = data := List.take_append_drop w data

/-- The row loop of `remove_padding` succeeds and equals the concatenation of
the row slices whenever every row slice is within bounds. -/
lemma remove_padding_rows_eq_some (data : List Nat) (unpadded stride : Nat) :
    ∀ (rem row : Nat),
      (∀ r, row ≤ r → r < row + rem → r * stride % U32 + unpadded ≤ data.length) →
      remove_padding_rows data unpadded stride row rem =
        some ((List.range' row rem).flatMap fun r =>
          (data.drop (r * stride % U32)).take unpadded) := by
  intro rem
  induction rem with
  | zero => intro row _; simp [remove_padding_rows]
  | succ n ih =>
    intro row hbound
    have hrow : row * stride % U32 + unpadded ≤ data.length :=
      hbound row (Nat.le_refl row) (by omega)
    have hrec := ih (row + 1) (fun r hr1 hr2 => hbound r (by omega) (by omega))
    simp only [remove_padding_rows, if_pos hrow, hrec]
    rw [List.range'_succ, List.flatMap_cons]

/-- Length of the concatenation of in-bounds row slices. -/
lemma flatMap_range'_rows_length (data : List Nat) (unpadded stride : Nat) :
    ∀ (rem row : Nat),
      (∀ r, row ≤ r → r < row + rem → r * stride % U32 + unpadded ≤ data.length) →
      ((List.range' row rem).flatMap fun r =>
        (data.drop (r * stride % U32)).take unpadded).length = rem * unpadded := by
  intro rem
  induction rem with
  | zero => intro row _; simp
  | succ n ih =>
    intro row hbound
    have hrow : row * stride % U32 + unpadded ≤ data.length :=
      hbound row (Nat.le_refl row) (by omega)
    have hrec := ih (row + 1) (fun r hr1 hr2 => hbound r (by omega) (by omega))
    rw [List.range'_succ, List.flatMap_cons, List.length_append, hrec,
      List.length_take, List.length_drop]
    have hle : unpadded ≤ data.length - row * stride % U32 := by omega
    rw [Nat.min_eq_left hle, Nat.succ_mul]
    exact Nat.add_comm _ _

/-- Under no-overflow conditions the aligned stride computation is exact
rounding up of `4 * width` to a multiple of 256. -/
lemma calculate_aligned_exact (width : Nat) (h : 4 * width + 255 < U32) :
    calculate_aligned_bytes_per_row width = (4 * width + 255) / 256 * 256 := by
  have h1 : 4 * width < U32 := by omega
  show (4 * width % U32 + 256 - 1) % U32 / 256 * 256 = (4 * width + 255) / 256 * 256
  rw [Nat.mod_eq_of_lt h1, show 4 * width + 256 - 1 = 4 * width + 255 from rfl,
    Nat.mod_eq_of_lt h]

/-- The expansion loop output length: a buffer of `3 * n` bytes expands to
`4 * n` bytes. -/
lemma rgb_chunks_to_rgba_length :
    ∀ (n : Nat) (l : List Nat), l.length = 3 * n →
      (rgb_chunks_to_rgba l).length = 4 * n := by
  intro n
  induction n with
  | zero =>
    intro l hlen
    simp only [Nat.mul_zero] at hlen
    simp [List.eq_nil_of_length_eq_zero hlen, rgb_chunks_to_rgba]
  | succ m ih =>
    intro l hlen
    match l with
    | [] => simp only [List.length_nil] at hlen; omega
    | [r] => simp only [List.length_cons, List.length_nil] at hlen; omega
    | [r, g] => simp only [List.length_cons, List.length_nil] at hlen; omega
    | r :: g :: b :: rest =>
      simp only [rgb_chunks_to_rgba, List.length_cons]
      have hrest : rest.length = 3 * m := by
        simp only [List.length_cons] at hlen; omega
      rw [ih rest hrest]
      omega

/-- The expansion loop is pixel-exact: byte `4 * i + j` (`j < 3`) of the
output is byte `3 * i + j` of the input, and byte `4 * i + 3` is 255. -/
lemma rgb_chunks_to_rgba_get :
    ∀ (n : Nat) (l : List Nat), l.length = 3 * n →
      ∀ i, i < n →
        (∀ j, j < 3 → (rgb_chunks_to_rgba l)[4 * i + j]? = l[3 * i + j]?) ∧
        (rgb_chunks_to_rgba l)[4 * i + 3]? = some 255 := by
  intro n
  induction n with
  | zero => intro l _ i hi; omega
  | succ m ih =>
    intro l hlen i hi
    match l with
    | [] => simp only [List.length_nil] at hlen; omega
    | [r] => simp only [List.length_cons, List.length_nil] at hlen; omega
    | [r, g] => simp only [List.length_cons, List.length_nil] at hlen; omega
    | r :: g :: b :: rest =>
      have hrest : rest.length = 3 * m := by
        simp only [List.length_cons] at hlen; omega
      simp only [rgb_chunks_to_rgba]
      match i with
      | 0 =>
        constructor
        · intro j hj
          match j with
          | 0 => simp
          | 1 => simp
          | 2 => simp
          | j + 3 => omega
        · simp
      | i' + 1 =>
        have hi' : i' < m := by omega
        have hmain := ih rest hrest i' hi'
        constructor
        · intro j hj
          rw [show 4 * (i' + 1) + j = 4 * i' + j + 1 + 1 + 1 + 1 by ring,
            show 3 * (i' + 1) + j = 3 * i' + j + 1 + 1 + 1 by ring]
          simp only [List.getElem?_cons_succ]
          exact hmain.1 j hj
        · rw [show 4 * (i' + 1) + 3 = 4 * i' + 3 + 1 + 1 + 1 + 1 by ring]
          simp only [List.getElem?_cons_succ]
          exact hmain.2

/-- All row starts of an in-range readback are in bounds and wrap-free. -/
lemma row_starts_in_bounds (data : List Nat) (width height stride : Nat)
    (hw4 : 4 * width ≤ stride) (hnw : stride * height < U32)
    (hlen : stride * height ≤ data.length) :
    ∀ r, 0 ≤ r → r < 0 + height → r * stride % U32 + 4 * width ≤ data.length := by
  intro r _ hr
  have h1 : r * stride + stride = (r + 1) * stride := by ring
  have h2 : (r + 1) * stride ≤ height * stride := Nat.mul_le_mul_right stride (by omega)
  have h3 : height * stride = stride * height := Nat.mul_comm height stride
  have hU : U32 = 4294967296 := rfl
  have hmod : r * stride % U32 = r * stride := Nat.mod_eq_of_lt (by omega)
  omega

/-- With no `u32` wrap, the row concatenation computed by the loop equals the
claimed concatenation of un-wrapped row slices. -/
lemma rows_flatMap_eq_claimed (data : List Nat) (width height stride : Nat)
    (hnw : stride * height < U32) :
    ((List.range' 0 height).flatMap fun r =>
      (data.drop (r * stride % U32)).take (4 * width)) =
      strip_rows_claimed data width height stride := by
  unfold strip_rows_claimed
  rw [← List.range_eq_range', List.flatMap_def, List.flatMap_def]
  congr 1
  apply List.map_congr_left
  intro r hr
  rw [List.mem_range] at hr
  have h2 : r * stride ≤ height * stride := Nat.mul_le_mul_right stride (by omega)
  have h3 : height * stride = stride * height := Nat.mul_comm height stride
  have hU : U32 = 4294967296 := rfl
  rw [Nat.mod_eq_of_lt (show r * stride < U32 by omega)]

/-- With no `u32` overflow in `width * height * 4`, the two expected lengths
inside `normalize_frame_to_rgba` are the exact products. -/
lemma normalize_frame_to_rgba_no_overflow (buffer : List Nat) (width height : Nat)
    (hnof : width * height * 4 < U32) :
    normalize_frame_to_rgba buffer width height =
      if buffer.length = width * height * 4 then Except.ok buffer
      else if buffer.length = width * height * 3 then
        Except.ok (rgb_chunks_to_rgba buffer)
      else Except.error GpuWorkerError.InvalidInput := by
  have hwh : width * height < U32 := by
    have := Nat.le_mul_of_pos_right (width * height) (show 0 < 4 by omega)
    omega
  have h3lt : width * height * 3 < U32 := by
    have : width * height * 3 ≤ width * height * 4 :=
      Nat.mul_le_mul_left (width * height) (by omega)
    omega
  have h4 : width * height % U32 * 4 % U32 = width * height * 4 := by
    rw [Nat.mod_eq_of_lt hwh]; exact Nat.mod_eq_of_lt hnof
  have h3 : width * height % U32 * 3 % U32 = width * height * 3 := by
    rw [Nat.mod_eq_of_lt hwh]; exact Nat.mod_eq_of_lt h3lt
  simp only [normalize_frame_to_rgba]
  rw [h4, h3]

/-- A failing step inside the frame loop prevents any successful result. -/
lemma process_frames_not_ok
    (mirror : List Nat → Nat → Nat → Except TransformationError (List Nat))
    (writeFrame : GifFrame → Bool) (width height : Nat) :
    ∀ frames : List GifFrame,
      (∃ i, ∃ hi : i < frames.length,
        frame_step_fails mirror writeFrame width height (frames.get ⟨i, hi⟩)) →
      ∀ out, process_frames mirror writeFrame width height frames ≠
        some (Except.ok out) := by
  intro frames
  induction frames with
  | nil =>
    rintro ⟨i, hi, _⟩
    exact absurd hi (by simp)
  | cons f rest ih =>
    rintro ⟨i, hi, hfail⟩ out hok
    cases i with
    | zero =>
      rcases hfail with ⟨e, hnorm⟩ | ⟨rgba, e, hnorm, hmir⟩ |
        ⟨rgba, mir, mf, hnorm, hmir, hcreate, hwf⟩
      · simp only [List.get] at hnorm
        simp [process_frames, hnorm] at hok
      · simp only [List.get] at hnorm hmir
        simp [process_frames, hnorm, hmir] at hok
      · simp only [List.get] at hnorm hmir hcreate hwf
        simp [process_frames, hnorm, hmir, hcreate, hwf] at hok
    | succ j =>
      have hj : j < rest.length := by simpa using hi
      have hfail' : frame_step_fails mirror writeFrame width height (rest.get ⟨j, hj⟩) :=
        hfail
      cases hn : normalize_frame_to_rgba f.buffer width height with
      | error e =>
        simp [process_frames, hn] at hok
      | ok rgba =>
        cases hm : mirror rgba width height with
        | error te =>
          simp [process_frames, hn, hm] at hok
        | ok mir =>
          cases hc : create_mirrored_frame f mir (width % U16) (height % U16) with
          | none =>
            simp [process_frames, hn, hm, hc] at hok
          | some mf =>
            cases hw : writeFrame mf with
            | false =>
              simp [process_frames, hn, hm, hc, hw] at hok
            | true =>
              cases hr : process_frames mirror writeFrame width height rest with
              | none =>
                simp [process_frames, hn, hm, hc, hw, hr] at hok
              | some exr =>
                cases exr with
                | error e =>
                  simp [process_frames, hn, hm, hc, hw, hr] at hok
                | ok outs =>
                  exact ih ⟨j, hj, hfail'⟩ outs hr

/-- A successful frame loop relates inputs and outputs pointwise. -/
lemma process_frames_ok_forall₂
    (mirror : List Nat → Nat → Nat → Except TransformationError (List Nat))
    (writeFrame : GifFrame → Bool) (width height : Nat) :
    ∀ (frames out : List GifFrame),
      process_frames mirror writeFrame width height frames = some (Except.ok out) →
      List.Forall₂ (frame_processed mirror width height) frames out := by
  intro frames
  induction frames with
  | nil =>
    intro out hok
    simp only [process_frames] at hok
    cases hok
    exact List.Forall₂.nil
  | cons f rest ih =>
    intro out hok
    cases hn : normalize_frame_to_rgba f.buffer width height with
    | error e =>
      simp [process_frames, hn] at hok
    | ok rgba =>
      cases hm : mirror rgba width height with
      | error te =>
        simp [process_frames, hn, hm] at hok
      | ok mir =>
        cases hc : create_mirrored_frame f mir (width % U16) (height % U16) with
        | none =>
          simp [process_frames, hn, hm, hc] at hok
        | some mf =>
          cases hw : writeFrame mf with
          | false =>
            simp [process_frames, hn, hm, hc, hw] at hok
          | true =>
            cases hr : process_frames mirror writeFrame width height rest with
            | none =>
              simp [process_frames, hn, hm, hc, hw, hr] at hok
            | some exr =>
              cases exr with
              | error e =>
                simp [process_frames, hn, hm, hc, hw, hr] at hok
              | ok outs =>
                simp only [process_frames] at hok
                rw [hn] at hok
                simp only [hm, hc, hw, hr, if_true] at hok
                simp only [Option.some.injEq, Except.ok.injEq] at hok
                subst hok
                refine List.Forall₂.cons ?_ (ih outs hr)
                cases hrg : rgba_to_rgb mir with
                | none => rw [create_mirrored_frame, hrg] at hc; cases hc
                | some rgb =>
                  rw [create_mirrored_frame, hrg] at hc
                  cases hc
                  exact ⟨rfl, rfl, rfl, rfl, rfl, rfl, rfl, rfl, rfl,
                    rgba, mir, rgb, hn, hm, hrg, rfl⟩

/-! ### Claim theorems -/

/-- C7, counterexample: with `stride = 4 * width` and data one byte longer
than `stride * height` (still "long enough to contain height rows of stride
bytes"), `remove_padding` returns all five input bytes, not the claimed
4-byte concatenation of the row slices. -/
theorem remove_padding_longer_data_cex :
    4 * 1 ≤ 4 ∧ 4 * 1 ≤ List.length [1, 2, 3, 4, 5] ∧
    remove_padding [1, 2, 3, 4, 5] 1 1 4 = some [1, 2, 3, 4, 5] ∧
    strip_rows_claimed [1, 2, 3, 4, 5] 1 1 4 = [1, 2, 3, 4] ∧
    [1, 2, 3, 4, 5] ≠ ([1, 2, 3, 4] : List Nat) :=
  ⟨by decide, by decide, rfl, rfl, by decide⟩

/-- C7 (amended): for data of length exactly `stride * height` (the size the
readback buffer is allocated with), with `stride ≥ 4 * width` and the sizes
below u32 overflow, `remove_padding` returns exactly the concatenation, for
`row = 0` to `height - 1`, of the `4 * width` bytes starting at offset
`row * stride`; when `stride = 4 * width` this is an identity copy. -/
theorem remove_padding_eq_strip_rows (data : List Nat) (width height stride : Nat)
    (hw : 4 * width < U32) (hs : 4 * width ≤ stride)
    (hnw : stride * height < U32)
    (hlen : data.length = stride * height) :
    remove_padding data width height stride =
      some (strip_rows_claimed data width height stride) := by
  have hmod4 : 4 * width % U32 = 4 * width := Nat.mod_eq_of_lt hw
  by_cases hcase : stride = 4 * width
  · show (if stride = 4 * width % U32 then some data
      else remove_padding_rows data (4 * width % U32) stride 0 height) = _
    rw [hmod4, if_pos hcase]
    unfold strip_rows_claimed
    rw [hcase] at hlen ⊢
    rw [flatMap_range_chunks (4 * width) height data hlen]
  · show (if stride = 4 * width % U32 then some data
      else remove_padding_rows data (4 * width % U32) stride 0 height) = _
    rw [hmod4, if_neg hcase]
    have hbound := row_starts_in_bounds data width height stride hs hnw (le_of_eq hlen.symm)
    rw [remove_padding_rows_eq_some data (4 * width) stride height 0 hbound]
    rw [rows_flatMap_eq_claimed data width height stride hnw]

/-- C7 witness: the amended theorem applied at a concrete padded input. -/
theorem remove_padding_eq_strip_rows_witness :
    (4 * 1 < U32 ∧ 4 * 1 ≤ 8 ∧ 8 * 1 < U32 ∧
      List.length [1, 2, 3, 4, 5, 6, 7, 8] = 8 * 1) ∧
    remove_padding [1, 2, 3, 4, 5, 6, 7, 8] 1 1 8 =
      some (strip_rows_claimed [1, 2, 3, 4, 5, 6, 7, 8] 1 1 8) :=
  ⟨⟨by decide, by decide, by decide, by decide⟩,
    remove_padding_eq_strip_rows [1, 2, 3, 4, 5, 6, 7, 8] 1 1 8
      (by decide) (by decide) (by decide) (by decide)⟩

/-- C8, counterexample: at `width = 2^30` the u32 computation of
`calculate_aligned_bytes_per_row` wraps and returns 0, which is not a
multiple of the alignment that is `≥ 4 * width`. -/
theorem calculate_aligned_overflow_cex :
    calculate_aligned_bytes_per_row 1073741824 = 0 ∧
    ¬(4 * 1073741824 ≤ calculate_aligned_bytes_per_row 1073741824) :=
  ⟨rfl, by decide⟩

/-- C8 (amended): for every width small enough that the u32 computation
does not wrap (`4 * width + 255 < 2^32`), `calculate_aligned_bytes_per_row`
returns the smallest multiple of `COPY_BYTES_PER_ROW_ALIGNMENT` that is
`≥ 4 * width`; the result depends only on `width` and that constant. -/
theorem calculate_aligned_least_multiple (width : Nat)
    (h : 4 * width + 255 < U32) :
    calculate_aligned_bytes_per_row width % COPY_BYTES_PER_ROW_ALIGNMENT = 0 ∧
    4 * width ≤ calculate_aligned_bytes_per_row width ∧
    ∀ m, m % COPY_BYTES_PER_ROW_ALIGNMENT = 0 → 4 * width ≤ m →
      calculate_aligned_bytes_per_row width ≤ m := by
  rw [calculate_aligned_exact width h]
  unfold COPY_BYTES_PER_ROW_ALIGNMENT
  refine ⟨by omega, by omega, ?_⟩
  intro m hm0 hm1
  omega

/-- C8 witness: the amended theorem applied at `width = 1`. -/
theorem calculate_aligned_least_multiple_witness :
    4 * 1 + 255 < U32 ∧
    (calculate_aligned_bytes_per_row 1 % COPY_BYTES_PER_ROW_ALIGNMENT = 0 ∧
     4 * 1 ≤ calculate_aligned_bytes_per_row 1 ∧
     ∀ m, m % COPY_BYTES_PER_ROW_ALIGNMENT = 0 → 4 * 1 ≤ m →
       calculate_aligned_bytes_per_row 1 ≤ m) :=
  ⟨by decide, calculate_aligned_least_multiple 1 (by decide)⟩

/-- C1, counterexample: at `width = 2^30`, `height = 1` the wrapped aligned
stride is 0, the readback buffer is allocated with `0` bytes, and
`mirror_vertically` succeeds returning 0 bytes instead of
`width * height * 4`. -/
theorem mirror_vertically_overflow_cex :
    List.length ([] : List Nat) = calculate_aligned_bytes_per_row 1073741824 * 1 % U32 ∧
    mirror_vertically [] 1073741824 1 = some [] ∧
    List.length ([] : List Nat) ≠ 1073741824 * 1 * 4 :=
  ⟨rfl, rfl, by decide⟩

/-- C1 (amended): for widths and heights whose stride computation and
readback allocation do not overflow u32, a successful `mirror_vertically`
returns exactly `width * height * 4` bytes, independent of the internal
aligned stride, assuming the GPU readback returns the allocated
`stride * height` bytes. -/
theorem mirror_vertically_output_length (readback : List Nat) (width height : Nat)
    (h1 : 4 * width + 255 < U32)
    (h2 : calculate_aligned_bytes_per_row width * height < U32)
    (hlen : readback.length = calculate_aligned_bytes_per_row width * height) :
    ∃ out, mirror_vertically readback width height = some out ∧
      out.length = width * height * 4 := by
  have hw : 4 * width < U32 := by omega
  have hmod4 : 4 * width % U32 = 4 * width := Nat.mod_eq_of_lt hw
  have hs_ge : 4 * width ≤ calculate_aligned_bytes_per_row width := by
    rw [calculate_aligned_exact width h1]
    omega
  by_cases hcase : calculate_aligned_bytes_per_row width = 4 * width
  · refine ⟨readback, ?_, ?_⟩
    · show (if calculate_aligned_bytes_per_row width = 4 * width % U32 then some readback
        else remove_padding_rows readback (4 * width % U32)
          (calculate_aligned_bytes_per_row width) 0 height) = some readback
      rw [hmod4, if_pos hcase]
    · rw [hlen, hcase]
      ring
  · have hbound := row_starts_in_bounds readback width height
      (calculate_aligned_bytes_per_row width) hs_ge h2 (le_of_eq hlen.symm)
    refine ⟨(List.range' 0 height).flatMap fun r =>
        (readback.drop (r * calculate_aligned_bytes_per_row width % U32)).take (4 * width),
      ?_, ?_⟩
    · show (if calculate_aligned_bytes_per_row width = 4 * width % U32 then some readback
        else remove_padding_rows readback (4 * width % U32)
          (calculate_aligned_bytes_per_row width) 0 height) = _
      rw [hmod4, if_neg hcase]
      exact remove_padding_rows_eq_some readback (4 * width)
        (calculate_aligned_bytes_per_row width) height 0 hbound
    · rw [flatMap_range'_rows_length readback (4 * width)
        (calculate_aligned_bytes_per_row width) height 0 hbound]
      ring

set_option maxRecDepth 4096 in
/-- C1 witness: the amended theorem applied at a 1x1 image with a 256-byte
aligned readback. -/
theorem mirror_vertically_output_length_witness :
    (4 * 1 + 255 < U32 ∧ calculate_aligned_bytes_per_row 1 * 1 < U32 ∧
      (List.replicate 256 7).length = calculate_aligned_bytes_per_row 1 * 1) ∧
    ∃ out, mirror_vertically (List.replicate 256 7) 1 1 = some out ∧
      out.length = 1 * 1 * 4 :=
  ⟨⟨by decide, by decide,
      by simp [calculate_aligned_bytes_per_row, U32, COPY_BYTES_PER_ROW_ALIGNMENT]⟩,
    mirror_vertically_output_length (List.replicate 256 7) 1 1
      (by decide) (by decide)
      (by simp [calculate_aligned_bytes_per_row, U32, COPY_BYTES_PER_ROW_ALIGNMENT])⟩

/-- C2, counterexample: at `width = height = 32768` the u32 product
`width * height * 4` wraps to 0, so a buffer of true length
`width * height * 4` is rejected instead of passed through. -/
theorem normalize_frame_overflow_cex :
    (List.replicate 4294967296 0).length = 32768 * 32768 * 4 ∧
    normalize_frame_to_rgba (List.replicate 4294967296 0) 32768 32768 =
      Except.error GpuWorkerError.InvalidInput := by
  constructor
  · rw [List.length_replicate]
  · simp only [normalize_frame_to_rgba, List.length_replicate]
    norm_num [U32]

/-- C2 (amended): for all widths and heights with `width * height * 4 < 2^32`
(no u32 overflow), `normalize_frame_to_rgba` passes an RGBA-sized buffer
through unchanged and expands an RGB-sized buffer to RGBA-sized output with
channel order preserved and alpha 255 at every pixel. -/
theorem normalize_frame_to_rgba_formats (buffer : List Nat) (width height : Nat)
    (hnof : width * height * 4 < U32) :
    (buffer.length = width * height * 4 →
      normalize_frame_to_rgba buffer width height = Except.ok buffer) ∧
    (buffer.length = width * height * 3 →
      ∃ out, normalize_frame_to_rgba buffer width height = Except.ok out ∧
        out.length = width * height * 4 ∧
        ∀ i, i < width * height →
          out[4 * i]? = buffer[3 * i]? ∧
          out[4 * i + 1]? = buffer[3 * i + 1]? ∧
          out[4 * i + 2]? = buffer[3 * i + 2]? ∧
          out[4 * i + 3]? = some 255) := by
  rw [normalize_frame_to_rgba_no_overflow buffer width height hnof]
  constructor
  · intro hlen
    rw [if_pos hlen]
  · intro hlen
    by_cases hz : width * height = 0
    · have hb0 : buffer.length = 0 := by omega
      refine ⟨buffer, ?_, by omega, ?_⟩
      · rw [if_pos (by omega)]
      · intro i hi
        omega
    · have hpos : 0 < width * height := Nat.pos_of_ne_zero hz
      have hlen3 : buffer.length = 3 * (width * height) := by omega
      rw [if_neg (by omega), if_pos hlen]
      refine ⟨rgb_chunks_to_rgba buffer, rfl, ?_, ?_⟩
      · rw [rgb_chunks_to_rgba_length (width * height) buffer hlen3]
        ring
      · intro i hi
        have hget := rgb_chunks_to_rgba_get (width * height) buffer hlen3 i hi
        refine ⟨?_, hget.1 1 (by omega), hget.1 2 (by omega), hget.2⟩
        have h0 := hget.1 0 (by omega)
        simpa using h0

/-- C2 witness: the amended theorem applied to a 1x1 RGB buffer. -/
theorem normalize_frame_to_rgba_formats_witness :
    1 * 1 * 4 < U32 ∧
    ((List.length [10, 20, 30] = 1 * 1 * 4 →
      normalize_frame_to_rgba [10, 20, 30] 1 1 = Except.ok [10, 20, 30]) ∧
    (List.length [10, 20, 30] = 1 * 1 * 3 →
      ∃ out, normalize_frame_to_rgba [10, 20, 30] 1 1 = Except.ok out ∧
        out.length = 1 * 1 * 4 ∧
        ∀ i, i < 1 * 1 →
          out[4 * i]? = [10, 20, 30][3 * i]? ∧
          out[4 * i + 1]? = [10, 20, 30][3 * i + 1]? ∧
          out[4 * i + 2]? = [10, 20, 30][3 * i + 2]? ∧
          out[4 * i + 3]? = some 255)) :=
  ⟨by decide, normalize_frame_to_rgba_formats [10, 20, 30] 1 1 (by decide)⟩

/-- C3, counterexample: at `width = height = 32768` the wrapped expected
RGBA length is 0, so the empty buffer — whose length matches neither true
product — is accepted unchanged instead of rejected. -/
theorem normalize_frame_wrap_accepts_cex :
    normalize_frame_to_rgba [] 32768 32768 = Except.ok [] ∧
    List.length ([] : List Nat) ≠ 32768 * 32768 * 3 ∧
    List.length ([] : List Nat) ≠ 32768 * 32768 * 4 :=
  ⟨rfl, by norm_num, by norm_num⟩

/-- C3 (amended): for all widths and heights with `width * height * 4 < 2^32`
(no u32 overflow), a buffer whose length is neither `width * height * 3` nor
`width * height * 4` is rejected with the invalid-input error, regardless of
content; no buffer is returned at all. -/
theorem normalize_frame_to_rgba_rejects (buffer : List Nat) (width height : Nat)
    (hnof : width * height * 4 < U32)
    (h3 : buffer.length ≠ width * height * 3)
    (h4 : buffer.length ≠ width * height * 4) :
    normalize_frame_to_rgba buffer width height =
      Except.error GpuWorkerError.InvalidInput := by
  rw [normalize_frame_to_rgba_no_overflow buffer width height hnof,
    if_neg h4, if_neg h3]

/-- C3 witness: the amended theorem applied to a 1-byte buffer at 1x1. -/
theorem normalize_frame_to_rgba_rejects_witness :
    (1 * 1 * 4 < U32 ∧ List.length [0] ≠ 1 * 1 * 3 ∧ List.length [0] ≠ 1 * 1 * 4) ∧
    normalize_frame_to_rgba [0] 1 1 = Except.error GpuWorkerError.InvalidInput :=
  ⟨⟨by decide, by decide, by decide⟩,
    normalize_frame_to_rgba_rejects [0] 1 1 (by decide) (by decide) (by decide)⟩

/-- C6, counterexample: an invalid frame buffer size and a zero-frame GIF
both produce `InvalidInput`, which maps to HTTP 400, not the 422 the claim
asserts for per-frame processing and decode failures. -/
theorem invalid_frame_size_maps_to_400_cex :
    normalize_frame_to_rgba [0] 1 1 = Except.error GpuWorkerError.InvalidInput ∧
    decode_gif (fun _ => some ([], 1, 1)) [] =
      Except.error GpuWorkerError.InvalidInput ∧
    error_status GpuWorkerError.InvalidInput = 400 ∧
    error_status GpuWorkerError.InvalidInput ≠ 422 :=
  ⟨rfl, rfl, rfl, by decide⟩

/-- C6 (amended): the actual status mapping — empty or missing `file` field
maps to 400; a malformed container (`GifDecode`) and encode or image
processing failures map to 422; but a zero-frame container and an invalid
frame buffer size produce `InvalidInput` and map to 400; GPU and internal
failures (including `Transformation`, which wraps all GPU mirror errors)
map to 500. -/
theorem error_status_mapping :
    extract_gif_from_multipart none = Except.error GpuWorkerError.InvalidInput ∧
    extract_gif_from_multipart (some []) = Except.error GpuWorkerError.InvalidInput ∧
    error_status GpuWorkerError.InvalidInput = 400 ∧
    error_status GpuWorkerError.Multipart = 400 ∧
    error_status GpuWorkerError.GifDecode = 422 ∧
    error_status GpuWorkerError.GifEncode = 422 ∧
    error_status GpuWorkerError.ImageProcessing = 422 ∧
    error_status GpuWorkerError.Image = 422 ∧
    decode_gif (fun _ => some ([], 2, 2)) [] =
      Except.error GpuWorkerError.InvalidInput ∧
    normalize_frame_to_rgba [0, 0] 1 1 = Except.error GpuWorkerError.InvalidInput ∧
    error_status GpuWorkerError.Gpu = 500 ∧
    error_status GpuWorkerError.WgpuDevice = 500 ∧
    error_status GpuWorkerError.Internal = 500 ∧
    error_status GpuWorkerError.IoError = 500 ∧
    error_status GpuWorkerError.Transformation = 500 :=
  ⟨rfl, rfl, rfl, rfl, rfl, rfl, rfl, rfl, rfl, rfl, rfl, rfl, rfl, rfl, rfl⟩

/-- C4: the pipeline is fail-fast — if decoding fails, or normalizing,
GPU-mirroring, or encoder-writing any frame fails, `process_gif_mirror`
yields no output container: it returns an error (or, for the panic-modelled
branch, aborts), never a successful result.  `Except.error` carries no
output bytes, so no partial container reaches the caller. -/
theorem process_gif_mirror_fail_fast
    (decoder : List Nat → Option (List GifFrame × Nat × Nat))
    (mirror : List Nat → Nat → Nat → Except TransformationError (List Nat))
    (writeFrame : GifFrame → Bool) (gif_data : List Nat)
    (hfail : (∃ e, decode_gif decoder gif_data = Except.error e) ∨
      (∃ frames width height,
        decode_gif decoder gif_data = Except.ok (frames, width, height) ∧
        ∃ i, ∃ hi : i < frames.length,
          frame_step_fails mirror writeFrame width height (frames.get ⟨i, hi⟩))) :
    process_gif_mirror decoder mirror writeFrame gif_data = none ∨
    ∃ e, process_gif_mirror decoder mirror writeFrame gif_data =
      some (Except.error e) := by
  rcases hfail with ⟨e, hdec⟩ | ⟨frames, width, height, hdec, hstep⟩
  · right
    exact ⟨e, by simp [process_gif_mirror, hdec]⟩
  · have hnot := process_frames_not_ok mirror writeFrame width height frames hstep
    cases hv : process_gif_mirror decoder mirror writeFrame gif_data with
    | none => exact Or.inl rfl
    | some ex =>
      cases ex with
      | error e2 => exact Or.inr ⟨e2, rfl⟩
      | ok g =>
        exfalso
        simp only [process_gif_mirror, hdec] at hv
        simp only [encode_mirrored_gif] at hv
        cases hp : process_frames mirror writeFrame width height frames with
        | none => rw [hp] at hv; simp at hv
        | some exr =>
          cases exr with
          | error e2 => rw [hp] at hv; simp at hv
          | ok outs => exact hnot outs hp

/-- C4 witness: the theorem applied to a decoder yielding one frame whose
buffer size is invalid, so its normalization fails. -/
theorem process_gif_mirror_fail_fast_witness :
    process_gif_mirror decoderBad mirrorId writeOk [] = none ∨
    ∃ e, process_gif_mirror decoderBad mirrorId writeOk [] =
      some (Except.error e) :=
  process_gif_mirror_fail_fast decoderBad mirrorId writeOk []
    (Or.inr ⟨[frameBad], 1, 1, rfl, 0, by decide,
      Or.inl ⟨GpuWorkerError.InvalidInput, rfl⟩⟩)

/-- C5: a successful encode emits one rebuilt frame per input frame in the
original order, each at the global canvas width/height, preserving delay,
disposal, transparency, needs-user-input, interlace and offsets, replacing
only the pixel content with the (RGB-converted) transformed pixels. -/
theorem encode_mirrored_gif_preserves_frames
    (frames : List GifFrame) (width height : Nat)
    (mirror : List Nat → Nat → Nat → Except TransformationError (List Nat))
    (writeFrame : GifFrame → Bool) (out : EncodedGif)
    (hw : width < U16) (hh : height < U16)
    (hok : encode_mirrored_gif frames width height mirror writeFrame =
      some (Except.ok out)) :
    out.width = width ∧ out.height = height ∧
    out.frames.length = frames.length ∧
    ∀ i, i < frames.length →
      ∃ f mf, frames[i]? = some f ∧ out.frames[i]? = some mf ∧
        mf.width = width ∧ mf.height = height ∧ mf.delay = f.delay ∧
        mf.dispose = f.dispose ∧ mf.transparent = f.transparent ∧
        mf.needs_user_input = f.needs_user_input ∧ mf.interlaced = f.interlaced ∧
        mf.left = f.left ∧ mf.top = f.top ∧
        ∃ rgba mirrored rgb,
          normalize_frame_to_rgba f.buffer width height = Except.ok rgba ∧
          mirror rgba width height = Except.ok mirrored ∧
          rgba_to_rgb mirrored = some rgb ∧ mf.buffer = rgb := by
  have hwmod : width % U16 = width := Nat.mod_eq_of_lt hw
  have hhmod : height % U16 = height := Nat.mod_eq_of_lt hh
  simp only [encode_mirrored_gif] at hok
  cases hp : process_frames mirror writeFrame width height frames with
  | none => rw [hp] at hok; simp at hok
  | some exr =>
    cases exr with
    | error e => rw [hp] at hok; simp at hok
    | ok outs =>
      rw [hp] at hok
      simp only [Option.some.injEq, Except.ok.injEq] at hok
      have hfields : out.width = width % U16 ∧ out.height = height % U16 ∧
          out.frames = outs := by
        rw [← hok]
        exact ⟨rfl, rfl, rfl⟩
      obtain ⟨how, hoh, hof⟩ := hfields
      have hf2 := process_frames_ok_forall₂ mirror writeFrame width height frames outs hp
      rw [List.forall₂_iff_get] at hf2
      obtain ⟨hlen, hpt⟩ := hf2
      refine ⟨by rw [how, hwmod], by rw [hoh, hhmod], by rw [hof, hlen], ?_⟩
      intro i hi
      have hi2 : i < outs.length := by omega
      have hrel := hpt i hi hi2
      obtain ⟨hd, hdi, htr, hnu, htp, hl, hint, hwid, hhei,
        rgba, mir, rgb, hnorm, hmir, hrgb, hbuf⟩ := hrel
      refine ⟨frames.get ⟨i, hi⟩, outs.get ⟨i, hi2⟩, ?_, ?_, ?_, ?_, hd, hdi, htr,
        hnu, hint, hl, htp, rgba, mir, rgb, hnorm, hmir, hrgb, hbuf⟩
      · rw [List.getElem?_eq_getElem hi]
        rfl
      · rw [hof, List.getElem?_eq_getElem hi2]
        rfl
      · rw [hwid, hwmod]
      · rw [hhei, hhmod]

/-- C5 witness: the theorem applied to a concrete one-frame sequence. -/
theorem encode_mirrored_gif_preserves_frames_witness :
    (1 < U16 ∧ 1 < U16 ∧
      encode_mirrored_gif [frameA] 1 1 mirrorId writeOk = some (Except.ok encodedA)) ∧
    encodedA.width = 1 ∧ encodedA.height = 1 ∧
    encodedA.frames.length = List.length [frameA] :=
  ⟨⟨by decide, by decide, rfl⟩,
    (encode_mirrored_gif_preserves_frames [frameA] 1 1 mirrorId writeOk encodedA
      (by decide) (by decide) rfl).1,
    (encode_mirrored_gif_preserves_frames [frameA] 1 1 mirrorId writeOk encodedA
      (by decide) (by decide) rfl).2.1,
    (encode_mirrored_gif_preserves_frames [frameA] 1 1 mirrorId writeOk encodedA
      (by decide) (by decide) rfl).2.2.1⟩

/-- C10: every successfully processed GIF is emitted with the loop setting
`Repeat::Infinite`, regardless of the input container or its metadata (the
decoder's loop setting is never read). -/
theorem process_gif_mirror_loop_always_infinite
    (decoder : List Nat → Option (List GifFrame × Nat × Nat))
    (mirror : List Nat → Nat → Nat → Except TransformationError (List Nat))
    (writeFrame : GifFrame → Bool) (gif_data : List Nat) (out : EncodedGif)
    (hok : process_gif_mirror decoder mirror writeFrame gif_data =
      some (Except.ok out)) :
    out.loopSetting = GifRepeat.Infinite := by
  simp only [process_gif_mirror] at hok
  cases hd : decode_gif decoder gif_data with
  | error e => rw [hd] at hok; simp at hok
  | ok tup =>
    obtain ⟨frames, width, height⟩ := tup
    rw [hd] at hok
    simp only [encode_mirrored_gif] at hok
    cases hp : process_frames mirror writeFrame width height frames with
    | none => rw [hp] at hok; simp at hok
    | some exr =>
      cases exr with
      | error e => rw [hp] at hok; simp at hok
      | ok outs =>
        rw [hp] at hok
        simp only [Option.some.injEq, Except.ok.injEq] at hok
        rw [← hok]
        rfl

/-- C10 witness: the theorem applied to a concrete successful run. -/
theorem process_gif_mirror_loop_always_infinite_witness :
    process_gif_mirror decoderA mirrorId writeOk [] = some (Except.ok encodedA) ∧
    encodedA.loopSetting = GifRepeat.Infinite :=
  ⟨rfl, process_gif_mirror_loop_always_infinite decoderA mirrorId writeOk []
    encodedA rfl⟩

end GpuWorker
